import Mathlib

/-!
Verification of the fiorbd_runner benchmark driver (src/main.py) against its
natural-language specification.  The Python source is shallowly embedded:
each subprocess call is modelled by its outcome (an `Except` value over a
small exception alphabet mirroring Python's exception classes), stateful
loops become explicit state passing, and wall-clock time is threaded as
explicit numeric values.
-/

namespace FiorbdRunner

/-- Python exception alphabet relevant to main.py.  `timeoutExpired` is
`subprocess.TimeoutExpired` (a subclass of `SubprocessError`, hence of
`Exception`); `timeoutError` is the builtin `TimeoutError` (a subclass of
`OSError`).  In CPython, `subprocess.TimeoutExpired` is NOT a subclass of the
builtin `TimeoutError`, so an `except TimeoutError` clause does not catch it.
`calledProcessError` is `subprocess.CalledProcessError` (non-zero exit from
`check_call` / `check_output`). -/
inductive PyExc where
  | timeoutExpired
  | timeoutError
  | calledProcessError
  deriving DecidableEq, Repr

/-- Whether an `except TimeoutError:` clause catches exception `e`: only the
builtin `TimeoutError` and its subclasses, of which `subprocess.TimeoutExpired`
is not one. -/
def catchesTimeoutError : PyExc → Bool
  | .timeoutError => true
  | _ => false

/-- Parsed payload of `ceph status -f json` as far as main.py reads it:
`health.status` and the keys of `health.checks`. -/
structure CephHealth where
  status : String
  checks : List String
  deriving DecidableEq, Repr

/-- Embedding of `ceph_health_ok` (src/main.py lines 16-21).  `outcome` is the
result of `subprocess.check_output('ceph status -f json', timeout=10)` already
decoded and parsed: `.ok h` when the command succeeded, `.error e` when it
raised.  The body compares `health.status` with `HEALTH_OK`; the
`except TimeoutError` clause returns `False` only for exceptions it actually
catches, and re-raises (propagates) everything else. -/
def ceph_health_ok (outcome : Except PyExc CephHealth) : Except PyExc Bool :=
  match outcome with
  | .ok h => .ok (h.status == "HEALTH_OK")
  | .error e => if catchesTimeoutError e then .ok false else .error e

/-- Embedding of `no_recovery` (src/main.py lines 24-26).  There is no
try/except at all: any exception from the subprocess call propagates.  On
success it returns whether `PG_DEGRADED` is absent from `health.checks`. -/
def no_recovery (outcome : Except PyExc CephHealth) : Except PyExc Bool :=
  match outcome with
  | .ok h => .ok (!h.checks.contains "PG_DEGRADED")
  | .error e => .error e

/-- The spec's `hasActiveRecovery()` is the negation of `no_recovery` (an
exception still propagates through the negation). -/
def hasActiveRecovery (outcome : Except PyExc CephHealth) : Except PyExc Bool :=
  (no_recovery outcome).map (fun b => !b)

/-- C1: the claim says a timed-out status query makes `ceph_health_ok` return
false without propagating the error.  In the code the subprocess timeout
raises `subprocess.TimeoutExpired`, which the `except TimeoutError` clause
does not catch, so the exception propagates to the caller; the clause was
clearly intended to catch the timeout (code bug).  This theorem evaluates the
embedded function at the failing input: on a subprocess timeout the result is
the propagated exception, not `.ok false`; the clause only fires for the
builtin `TimeoutError`, which `check_output` does not raise for its `timeout=`
argument. -/
theorem c1_timeout_propagates :
    ceph_health_ok (Except.error PyExc.timeoutExpired)
      = Except.error PyExc.timeoutExpired ∧
    ceph_health_ok (Except.error PyExc.timeoutExpired) ≠ Except.ok false ∧
    ceph_health_ok (Except.error PyExc.timeoutError) = Except.ok false := by
  refine ⟨rfl, ?_, rfl⟩
  intro h
  exact Except.noConfusion h

/-- C2 counterexample: the claim says that when the conditions query times
out, `hasActiveRecovery()` returns true (never an uncaught error).  On the
timeout outcome the embedded `hasActiveRecovery` propagates the exception
instead of returning `.ok true`. -/
theorem c2_counterexample :
    hasActiveRecovery (Except.error PyExc.timeoutExpired)
      = Except.error PyExc.timeoutExpired ∧
    hasActiveRecovery (Except.error PyExc.timeoutExpired) ≠ Except.ok true := by
  refine ⟨rfl, ?_⟩
  intro h
  exact Except.noConfusion h

/-- C2 amended: `no_recovery` has no exception handler, so a timeout or
unreachable control plane propagates the exception to the caller (the barrier
loops abort rather than treating ambiguity as recovery-ongoing); when the
query succeeds, `hasActiveRecovery` returns true exactly when `PG_DEGRADED`
is among the reported condition codes. -/
theorem c2_amended (e : PyExc) (h : CephHealth) :
    no_recovery (Except.error e) = Except.error e ∧
    hasActiveRecovery (Except.error e) = Except.error e ∧
    hasActiveRecovery (Except.ok h) = Except.ok (h.checks.contains "PG_DEGRADED") := by
  refine ⟨rfl, rfl, ?_⟩
  simp [hasActiveRecovery, no_recovery, Except.map]

/-- Observable actions of the `monitoring` context manager (src/main.py lines
128-140): starting the sampler thread, running the `with`-block body, setting
the stop event and joining the thread. -/
inductive MonAction where
  | startThread
  | runBody
  | setEvent
  | joinThread
  deriving DecidableEq, Repr

/-- Embedding of the `monitoring` context manager: `contextlib.contextmanager`
with `try: yield / finally: evt.set(); th.join()`.  A `with monitoring(...)`
block starts the thread, runs the body, and the `finally` clause sets the
event and joins on every exit path; a body exception is re-raised only after
the cleanup, so the returned outcome is exactly the body's outcome. -/
def monitoring_with (body : Except PyExc Unit) : List MonAction × Except PyExc Unit :=
  ([MonAction.startThread, MonAction.runBody, MonAction.setEvent, MonAction.joinThread],
   body)

/-- Loop skeleton of `monitoring_func` (src/main.py line 62): iteration `i`
first waits on the stop event; `stops` lists, per iteration, whether
`stop_evt.wait` observed the stop signal.  When it did the loop exits at once;
otherwise the tick body runs to completion (ticks are atomic here) and the
index is recorded.  Returns the indices of the completed ticks. -/
def monitoring_loop : List Bool → Nat → List Nat
  | [], _ => []
  | stopObserved :: rest, i =>
      if stopObserved then [] else i :: monitoring_loop rest (i + 1)

theorem monitoring_loop_replicate (n : Nat) :
    ∀ i, monitoring_loop (List.replicate n false ++ [true]) i = List.range' i n := by
  induction n with
  | zero => intro i; simp [monitoring_loop]
  | succ m ih =>
      intro i
      simp only [List.replicate_succ, List.cons_append, monitoring_loop, if_neg
        (by simp : ¬ (false = true))]
      rw [List.range'_succ]
      exact congrArg (fun l => i :: l) (ih (i + 1))

/-- C3: on every exit path of the fio_test run — normal completion or an
exception from the body — the `finally` clause of `monitoring` signals the
stop event and joins the sampler thread before control returns, and the
body's outcome is then propagated unchanged; moreover, once the stop signal
is observed by the sampler loop after `n` completed ticks, the in-flight tick
has finished (every recorded tick index corresponds to a completed tick body)
and the loop terminates, which is what `th.join()` waits for. -/
theorem c3_sampler_stopped_on_every_exit (body : Except PyExc Unit) (n : Nat) :
    (monitoring_with body).1
      = [MonAction.startThread, MonAction.runBody, MonAction.setEvent,
         MonAction.joinThread] ∧
    (monitoring_with body).2 = body ∧
    monitoring_loop (List.replicate n false ++ [true]) 0 = List.range n := by
  refine ⟨rfl, rfl, ?_⟩
  rw [monitoring_loop_replicate n 0, List.range_eq_range']

/-- Deadline computation of `monitoring_func` (src/main.py line 63): right
after the wait returns (the tick's fire time), the next deadline is computed
once, as the current time plus the monitoring period. -/
def nextDeadline (fireTime period : Nat) : Nat := fireTime + period

/-- Fire times of the sampler ticks (src/main.py lines 58-70), with the stop
event never set during the modelled ticks.  `f0` is the time of the first
fire (line 58 sets the first deadline to the current time, so the first wait
returns immediately); `ds` lists each tick body's duration.  After a tick
fires at `f`, its deadline for the next tick is `nextDeadline f period`; the
tick body completes at `f + d`, and the next wait returns at the deadline, or
immediately if the body overran it (`Event.wait` with a non-positive timeout
returns at once), so the next fire time is the max of the two. -/
def monFireTimes (f0 period : Nat) : List Nat → List Nat
  | [] => []
  | d :: ds => f0 :: monFireTimes (max (nextDeadline f0 period) (f0 + d)) period ds

/-- The deadline each tick computes (one per fired tick): its own fire time
plus the period. -/
def monDeadlines (f0 period : Nat) (ds : List Nat) : List Nat :=
  (monFireTimes f0 period ds).map (fun f => f + period)

/-- C4 counterexample: the claim says each tick's deadline is the previous
deadline plus the interval.  With period 5 and a first tick that takes 12
time units, the deadlines are [5, 17, 22]: the second deadline is 17, not
5 + 5 = 10 — the code computes each deadline from the tick's fire time
(`time.time() + period`), so a slow tick shifts the schedule by its overrun. -/
theorem c4_counterexample :
    monDeadlines 0 5 [12, 1, 1] = [5, 17, 22] ∧ (17 : Nat) ≠ 5 + 5 := by
  decide

theorem monFireTimes_closed_form (period : Nat) (ds : List Nat) :
    ∀ f0, monFireTimes f0 period ds
      = (List.range ds.length).map
          (fun i => f0 + (((ds.take i).map (fun d => max period d)).sum)) := by
  induction ds with
  | nil => intro f0; simp [monFireTimes]
  | cons d ds ih =>
      intro f0
      have hmax : max (nextDeadline f0 period) (f0 + d) = f0 + max period d := by
        simp only [nextDeadline]; omega
      simp only [monFireTimes, hmax, ih (f0 + max period d), List.length_cons,
        List.range_succ_eq_map, List.map_cons, List.map_map]
      refine congrArg₂ _ (by simp) ?_
      refine List.map_congr_left ?_
      intro i _
      simp [List.take_succ_cons, Nat.add_assoc]

/-- C4 amended: each tick's deadline is computed once, at the tick's fire
time, as fire time + period (not previous deadline + period, and not from the
tick's completion time); consequently fire time `i` equals the start time
plus the sum of `max period d` over the earlier tick durations `d`, so each
slow tick shifts the schedule by exactly its own overrun (`max period d` is
`period + (d - period)` when `d > period`) and a fast tick contributes
exactly one period. -/
theorem c4_deadline_from_fire_time (f0 period : Nat) (ds : List Nat) :
    monDeadlines f0 period ds = (monFireTimes f0 period ds).map (fun f => f + period) ∧
    monFireTimes f0 period ds
      = (List.range ds.length).map
          (fun i => f0 + (((ds.take i).map (fun d => max period d)).sum)) :=
  ⟨rfl, monFireTimes_closed_form period ds f0⟩

/-- Outcome of one `subprocess.check_call(cmd, timeout=...)` with stdout
redirected to a freshly opened file. -/
inductive CmdOutcome where
  | success
  | timeout
  | nonZeroExit
  deriving DecidableEq, Repr

/-- Embedding of `run_cmd_to` (src/main.py lines 73-81).  Result is
(destination file still present, returned value or propagated exception).
The destination is created by `fpath.open("wb")` before the command runs;
only `subprocess.TimeoutExpired` is caught (print, unlink the file, return
False); success returns True with the file retained; a non-zero exit raises
`CalledProcessError`, which is not caught, leaving the file in place. -/
def run_cmd_to (o : CmdOutcome) : Bool × Except PyExc Bool :=
  match o with
  | .success => (true, .ok true)
  | .timeout => (false, .ok false)
  | .nonZeroExit => (true, .error .calledProcessError)

/-- Embedding of one sampler tick body (src/main.py lines 64-70): open the
destination, run `rados df`, on `TimeoutExpired` print and unlink the
destination and fall through to the next loop iteration.  Result is
(destination file still present, `.ok ()` when the loop continues or the
propagated exception that aborts the sampler thread). -/
def monitoring_tick (o : CmdOutcome) : Bool × Except PyExc Unit :=
  match o with
  | .success => (true, .ok ())
  | .timeout => (false, .ok ())
  | .nonZeroExit => (true, .error .calledProcessError)

/-- Full sampler loop (src/main.py lines 62-70): each iteration pairs the
stop-event observation with the tick's command outcome; the result is the
per-tick file-present record, or the exception that killed the thread. -/
def monitoring_func_run : List (Bool × CmdOutcome) → Except PyExc (List Bool)
  | [] => .ok []
  | (stopObserved, o) :: rest =>
      if stopObserved then .ok []
      else
        match monitoring_tick o with
        | (filePresent, .ok ()) => (monitoring_func_run rest).map (fun l => filePresent :: l)
        | (_, .error e) => .error e

/-- C5 counterexample: the claim says every failed capture tick removes the
destination file and the sampler continues.  A tick whose `rados df` exits
non-zero raises `CalledProcessError`, which the code does not catch: the
destination file is retained (partial artifact) and the tick does not
continue the loop. -/
theorem c5_counterexample :
    (monitoring_tick CmdOutcome.nonZeroExit).1 = true ∧
    (monitoring_tick CmdOutcome.nonZeroExit).2 ≠ Except.ok () := by
  refine ⟨rfl, ?_⟩
  intro h
  exact Except.noConfusion h

/-- C5 amended: for every capture tick that fails by timeout, the destination
file is removed and the sampler continues to the next tick (the loop result
is the remaining run prefixed by this tick's failed record); a capture that
exits non-zero instead raises an uncaught `CalledProcessError` that aborts
the sampler thread and leaves the partial destination file in place. -/
theorem c5_timeout_tick_cleanup (rest : List (Bool × CmdOutcome)) :
    monitoring_tick CmdOutcome.timeout = (false, Except.ok ()) ∧
    run_cmd_to CmdOutcome.timeout = (false, Except.ok false) ∧
    monitoring_func_run ((false, CmdOutcome.timeout) :: rest)
      = (monitoring_func_run rest).map (fun l => false :: l) ∧
    monitoring_tick CmdOutcome.nonZeroExit
      = (true, Except.error PyExc.calledProcessError) :=
  ⟨rfl, rfl, rfl, rfl⟩

/-- Maximum-percentile extraction of `run_test` (src/main.py lines 114-118):
`max_p` starts at 0 and is raised to each job group's percentile value `v`
when `v > max_p`.  `jobs` lists, per job group, the integer value found at
`stats['mixed']['clat_ns']['percentile'][...]`. -/
def max_p_of (jobs : List Nat) : Nat :=
  jobs.foldl (fun m v => if v > m then v else m) 0

/-- Per-phase statistic (src/main.py line 120): the extracted maximum divided
by 10^6 (Python float division; exact here over the rationals). -/
def phase_stat (jobs : List Nat) : ℚ :=
  (max_p_of jobs : ℚ) / 10 ^ 6

/-- How a run of `run_test` ends: the queue-depth loop ran to completion, the
latency ceiling fired a `break` at some queue depth, or an uncaught exception
(e.g. a failed fio invocation) aborted it. -/
inductive RunEnd where
  | completed
  | stoppedByLimit (qd : Nat)
  | fatal (e : PyExc)
  deriving DecidableEq, Repr

/-- Embedding of the `run_test` queue-depth loop (src/main.py lines 90-125).
Each phase is a queue depth paired with the outcome of its fio invocation:
`.ok jobs` carries the per-job-group percentile values parsed from the fio
output, `.error e` a fio failure (`subprocess.check_call` at line 106
raising).  Returns the queue depths whose phases were entered, and how the
loop ended: a phase whose statistic exceeds `lat_limit` breaks out of the
loop; a fio failure propagates. -/
def run_test (lat_limit : ℚ) : List (Nat × Except PyExc (List Nat)) → List Nat × RunEnd
  | [] => ([], .completed)
  | (qd, fioResult) :: rest =>
      match fioResult with
      | .error e => ([qd], .fatal e)
      | .ok jobs =>
          if phase_stat jobs > lat_limit then ([qd], .stoppedByLimit qd)
          else
            let r := run_test lat_limit rest
            (qd :: r.1, r.2)

/-- C6: once a phase's extracted percentile latency exceeds the ceiling, no
later phase runs — if every phase before the exceeding one succeeded within
the limit, the executed queue depths are exactly the earlier ones plus the
exceeding one, the remaining phases are never entered, and the run ends in
the clean `stoppedByLimit` terminal state, which is distinct from every
fatal-error state. -/
theorem c6_early_stop (lat_limit : ℚ) (pre : List (Nat × Except PyExc (List Nat)))
    (qd : Nat) (jobs : List Nat) (rest : List (Nat × Except PyExc (List Nat)))
    (hpre : ∀ p ∈ pre, ∃ js, p.2 = Except.ok js ∧ phase_stat js ≤ lat_limit)
    (hstop : phase_stat jobs > lat_limit) :
    run_test lat_limit (pre ++ (qd, Except.ok jobs) :: rest)
      = (pre.map Prod.fst ++ [qd], RunEnd.stoppedByLimit qd) ∧
    ∀ e, RunEnd.stoppedByLimit qd ≠ RunEnd.fatal e := by
  refine ⟨?_, fun e h => RunEnd.noConfusion h⟩
  induction pre with
  | nil => simp [run_test, hstop]
  | cons p ps ih =>
      obtain ⟨js, hok, hle⟩ := hpre p (List.mem_cons_self p ps)
      obtain ⟨pqd, pres⟩ := p
      simp only at hok
      subst hok
      have hnot : ¬ phase_stat js > lat_limit := not_lt.mpr hle
      have ihh := ih (fun q hq => hpre q (List.mem_cons_of_mem _ hq))
      simp only [List.cons_append, run_test, if_neg hnot, List.append_eq, ihh,
        List.map_cons]

/-- C6 witness inputs: the spec's end-to-end scenario, queue depths
[25, 50, 100] with ceiling 20 ms, measured 10 ms, 15 ms, then 25 ms. -/
theorem c6_early_stop_witness :
    run_test 20 [(25, Except.ok [10000000]), (50, Except.ok [15000000]),
        (100, Except.ok [25000000]), (125, Except.ok [5])]
      = ([25, 50, 100], RunEnd.stoppedByLimit 100) ∧
    ∀ e, RunEnd.stoppedByLimit 100 ≠ RunEnd.fatal e :=
  c6_early_stop 20 [(25, Except.ok [10000000]), (50, Except.ok [15000000])] 100
    [25000000] [(125, Except.ok [5])]
    (by
      intro p hp
      simp only [List.mem_cons, List.not_mem_nil, or_false] at hp
      rcases hp with h | h
      · subst h; exact ⟨[10000000], rfl, by norm_num [phase_stat, max_p_of]⟩
      · subst h; exact ⟨[15000000], rfl, by norm_num [phase_stat, max_p_of]⟩)
    (by norm_num [phase_stat, max_p_of])

theorem max_p_of_eq_foldl (jobs : List Nat) : max_p_of jobs = jobs.foldl max 0 := by
  unfold max_p_of
  have : (fun (m v : Nat) => if v > m then v else m) = max := by
    funext m v
    split <;> omega
  rw [this]

theorem le_foldl_max_init (l : List Nat) : ∀ a, a ≤ l.foldl max a := by
  induction l with
  | nil => intro a; simp
  | cons b l ih =>
      intro a
      exact le_trans (le_max_left a b) (ih (max a b))

theorem le_foldl_max (l : List Nat) : ∀ a v, v ∈ a :: l → v ≤ l.foldl max a := by
  induction l with
  | nil =>
      intro a v hv
      simp only [List.mem_singleton] at hv
      simp [hv]
  | cons b l ih =>
      intro a v hv
      simp only [List.foldl_cons]
      rw [List.mem_cons, List.mem_cons] at hv
      rcases hv with hva | hvb | hv
      · subst hva
        exact le_trans (le_max_left v b) (le_foldl_max_init l (max v b))
      · subst hvb
        exact le_trans (le_max_right a v) (le_foldl_max_init l (max a v))
      · exact ih (max a b) v (List.mem_cons_of_mem _ hv)

theorem foldl_max_mem (l : List Nat) : ∀ a, l.foldl max a ∈ a :: l := by
  induction l with
  | nil => intro a; simp
  | cons b l ih =>
      intro a
      have h := ih (max a b)
      rw [List.mem_cons] at h
      rcases h with h | h
      · rcases max_choice a b with hm | hm
        · simp only [List.foldl_cons]
          rw [List.mem_cons]
          exact Or.inl (h.trans hm)
        · simp only [List.foldl_cons]
          rw [List.mem_cons, List.mem_cons]
          exact Or.inr (Or.inl (h.trans hm))
      · simp only [List.foldl_cons]
        rw [List.mem_cons, List.mem_cons]
        exact Or.inr (Or.inr h)

/-- C7: the phase statistic is the configured percentile value of the
worst job group — it equals some job group's value divided exactly by 10^6,
no job group's converted value exceeds it, a raw value of 90000000 yields
90 ms, and raw group values [12000000, 45500000, 30200000] (i.e. 12.0, 45.5,
30.2 ms) yield 45.5 ms. -/
theorem c7_percentile_max_over_groups (jobs : List Nat) (h : jobs ≠ []) :
    (∃ v ∈ jobs, phase_stat jobs = (v : ℚ) / 10 ^ 6) ∧
    (∀ v ∈ jobs, (v : ℚ) / 10 ^ 6 ≤ phase_stat jobs) ∧
    phase_stat [90000000] = 90 ∧
    phase_stat [12000000, 45500000, 30200000] = (45.5 : ℚ) := by
  have hub : ∀ v ∈ jobs, v ≤ max_p_of jobs := by
    intro v hv
    rw [max_p_of_eq_foldl]
    exact le_foldl_max jobs 0 v (List.mem_cons_of_mem 0 hv)
  have hmem' : max_p_of jobs = 0 ∨ max_p_of jobs ∈ jobs := by
    rw [max_p_of_eq_foldl]
    have hm := foldl_max_mem jobs 0
    rwa [List.mem_cons] at hm
  have hmem2 : max_p_of jobs ∈ jobs := by
    rcases hmem' with h0 | hin
    · rcases jobs with _ | ⟨j, rest⟩
      · exact absurd rfl h
      · have hj := hub j (List.mem_cons_self j rest)
        rw [h0] at hj
        have hj0 : j = 0 := Nat.le_zero.mp hj
        rw [h0, ← hj0]
        exact List.mem_cons_self j rest
    · exact hin
  refine ⟨⟨max_p_of jobs, hmem2, rfl⟩, ?_, ?_, ?_⟩
  · intro v hv
    unfold phase_stat
    gcongr
    exact_mod_cast hub v hv
  · norm_num [phase_stat, max_p_of]
  · norm_num [phase_stat, max_p_of]

/-- C7 witness: the theorem applied at the spec's example input, a single
job group whose raw percentile value is 90000000. -/
theorem c7_witness :
    (∃ v ∈ ([90000000] : List Nat), phase_stat [90000000] = (v : ℚ) / 10 ^ 6) ∧
    (∀ v ∈ ([90000000] : List Nat), (v : ℚ) / 10 ^ 6 ≤ phase_stat [90000000]) ∧
    phase_stat [90000000] = 90 ∧
    phase_stat [12000000, 45500000, 30200000] = (45.5 : ℚ) :=
  c7_percentile_max_over_groups [90000000] (by simp)

/-- Weight map of the rebalance run (src/main.py line 159): a dict
comprehension over `opts.osd` binding every id to the constant 1.85199 — the
OSDTree-based capture of actual cluster weights (lines 154-156) is commented
out.  Keys are deduplicated as in a Python dict. -/
def weights_of_nodes (osds : List Nat) : List (Nat × ℚ) :=
  osds.dedup.map (fun osdid => (osdid, (1.85199 : ℚ)))

/-- Name set of the rebalance run (src/main.py line 158):
`{"osd.{}".format(osdid) for osdid in opts.osd}`.  The format string is
injective in `osdid`, so the set is in bijection with the set of distinct
ids, which is what we record. -/
def rebalance_names (osds : List Nat) : List Nat :=
  osds.dedup

/-- Reweight commands of one rebalance sub-phase (src/main.py lines 170-173):
`ceph osd crush reweight osd.{id} {w}` with `w = 0` when evacuating (`out`)
and `w = weights_of_nodes[osd_id]` when restoring; every dict value is the
constant 1.85199. -/
def rebalance_cmds (osds : List Nat) (out : Bool) : List (Nat × ℚ) :=
  osds.map (fun osd_id => (osd_id, if out then 0 else (1.85199 : ℚ)))

/-- Modelled from the spec for comparison: the restore sub-phase sets each
member's weight to that member's original cluster weight, captured up front
from the cluster. -/
def rebalance_cmds_spec (osds : List Nat) (origWeight : Nat → ℚ) (out : Bool) :
    List (Nat × ℚ) :=
  osds.map (fun osd_id => (osd_id, if out then 0 else origWeight osd_id))

/-- C8 counterexample: for a member (osd 19) whose original cluster weight is
3, the code's restore command sets weight 1.85199 — the hardcoded constant,
not the member's original weight — so the code differs from the claimed
capture-and-restore behaviour. -/
theorem c8_counterexample :
    rebalance_cmds [19] false = [(19, (1.85199 : ℚ))] ∧
    rebalance_cmds_spec [19] (fun _ => 3) false = [(19, (3 : ℚ))] ∧
    rebalance_cmds [19] false ≠ rebalance_cmds_spec [19] (fun _ => 3) false := by
  refine ⟨rfl, rfl, ?_⟩
  norm_num [rebalance_cmds, rebalance_cmds_spec]

/-- C8 amended: the evacuate sub-phase sets every member's target weight to
zero; the restore sub-phase sets every member's target weight to the
hardcoded constant 1.85199 (the capture of original weights is commented
out, so no cluster weight is ever read); the up-front consistency assertion
compares two collections both derived from the input id set, so it holds for
every input and never aborts the run. -/
theorem c8_hardcoded_weights (osds : List Nat) :
    rebalance_cmds osds true = osds.map (fun i => (i, (0 : ℚ))) ∧
    rebalance_cmds osds false = osds.map (fun i => (i, (1.85199 : ℚ))) ∧
    (weights_of_nodes osds).length = (rebalance_names osds).length ∧
    ∀ p ∈ weights_of_nodes osds, p.2 = (1.85199 : ℚ) := by
  refine ⟨by simp [rebalance_cmds], by simp [rebalance_cmds],
    by simp [weights_of_nodes, rebalance_names], ?_⟩
  intro p hp
  simp only [weights_of_nodes, List.mem_map] at hp
  obtain ⟨i, _, hi⟩ := hp
  rw [← hi]

/-- Timestamp record of one rebalance iteration (spec §3 RebalanceIteration,
src/main.py: `times[i]["start_out"]` etc.). -/
structure RebalanceIteration where
  startOut : ℤ
  finishOut : ℤ
  startIn : ℤ
  finishIn : ℤ
  deriving DecidableEq, Repr

/-- Embedding of the timestamp recording of the rebalance run (src/main.py
lines 165-193).  `t n` is the wall-clock value at the n-th recorded
`time.time()` read, in chronological order.  Iteration `i` performs, in
order, reads `4i` (start_out, lines 167-168 with out=True), `4i+1`
(finish_out, line 193), `4i+2` (start_in) and `4i+3` (finish_in); each is
stored through `int(...)`, which for the non-negative epoch times involved is
the floor. -/
def rebalance_records (t : Nat → ℚ) (count : Nat) : List RebalanceIteration :=
  (List.range count).map (fun i =>
    { startOut := ⌊t (4 * i)⌋
      finishOut := ⌊t (4 * i + 1)⌋
      startIn := ⌊t (4 * i + 2)⌋
      finishIn := ⌊t (4 * i + 3)⌋ })

/-- C9: in every iteration record of a completed rebalance run, the four
epoch timestamps are ordered startOut ≤ finishOut ≤ startIn ≤ finishIn,
because the four reads happen in that order on a forward-moving clock and
the `int` truncation is monotone. -/
theorem c9_timestamp_order (t : Nat → ℚ) (count : Nat) (r : RebalanceIteration)
    (hmono : Monotone t) (hr : r ∈ rebalance_records t count) :
    r.startOut ≤ r.finishOut ∧ r.finishOut ≤ r.startIn ∧ r.startIn ≤ r.finishIn := by
  simp only [rebalance_records, List.mem_map, List.mem_range] at hr
  obtain ⟨i, _, hi⟩ := hr
  subst hi
  refine ⟨?_, ?_, ?_⟩ <;> exact Int.floor_le_floor (hmono (by omega))

/-- C9 witness: the theorem applied to the single record of a one-iteration
run on the identity clock. -/
theorem c9_timestamp_order_witness :
    (⟨0, 1, 2, 3⟩ : RebalanceIteration).startOut
        ≤ (⟨0, 1, 2, 3⟩ : RebalanceIteration).finishOut ∧
    (⟨0, 1, 2, 3⟩ : RebalanceIteration).finishOut
        ≤ (⟨0, 1, 2, 3⟩ : RebalanceIteration).startIn ∧
    (⟨0, 1, 2, 3⟩ : RebalanceIteration).startIn
        ≤ (⟨0, 1, 2, 3⟩ : RebalanceIteration).finishIn :=
  c9_timestamp_order (fun n => (n : ℚ)) 1 ⟨0, 1, 2, 3⟩ Nat.mono_cast (by decide)

/-- Python's `str.strip()` on the characters of a line: remove leading and
trailing whitespace. -/
def pyStrip (cs : List Char) : List Char :=
  ((cs.dropWhile Char.isWhitespace).reverse.dropWhile Char.isWhitespace).reverse

/-- Python's `str.startswith(p)`. -/
def pyStartsWith (cs p : List Char) : Bool :=
  p.isPrefixOf cs

/-- Helper for `str.split()`: `acc` holds the reversed characters of the
chunk being accumulated. -/
def pySplitAux : List Char → List Char → List (List Char)
  | [], acc => if acc.isEmpty then [] else [acc.reverse]
  | c :: cs, acc =>
      if c.isWhitespace then
        if acc.isEmpty then pySplitAux cs []
        else acc.reverse :: pySplitAux cs []
      else pySplitAux cs (c :: acc)

/-- Python's `str.split()` with no argument: split on runs of whitespace,
discarding empty chunks. -/
def pySplit (cs : List Char) : List (List Char) :=
  pySplitAux cs []

/-- Python's `int(s)` on the plain decimal numerals `rbd info` prints: the
value when every character is a digit and the token is non-empty, `none`
(a `ValueError`) otherwise. -/
def pyIntAux : List Char → Nat → Option Nat
  | [], acc => some acc
  | c :: cs, acc =>
      if c.isDigit then pyIntAux cs (acc * 10 + (c.toNat - '0'.toNat))
      else none

def pyInt? (cs : List Char) : Option Nat :=
  if cs.isEmpty then none else pyIntAux cs 0

/-- Unit factors recognised by `get_volume_size` (src/main.py line 221): the
dict `{"MB": 2**20, "GB": 2**30, "TB": 2**40}`; a lookup with any other key
raises `KeyError`. -/
def unitsMap (u : List Char) : Option Nat :=
  if u = "MB".data then some (2 ^ 20)
  else if u = "GB".data then some (2 ^ 30)
  else if u = "TB".data then some (2 ^ 40)
  else none

/-- How `get_volume_size` can end: return a byte count, raise `KeyError` on
an unrecognised unit string, raise `ValueError` (non-numeric size token or
too few tokens to unpack), or `raise SystemExit(code)`. -/
inductive VolSizeResult where
  | ok (size : Nat)
  | keyError (units : List Char)
  | valueError
  | systemExit (code : Nat)
  deriving DecidableEq, Repr

/-- Processing of the matched size line (src/main.py lines 220-221):
`_, sz_s, units, *_ = line.split()` (fewer than three tokens raises
`ValueError`), then `int(sz_s) * {...}[units]` — Python evaluates `int(sz_s)`
before the dict subscription, so a bad numeral raises `ValueError` before a
bad unit could raise `KeyError`. -/
def get_volume_size_line (line : List Char) : VolSizeResult :=
  match pySplit line with
  | _ :: sz_s :: units :: _ =>
      match pyInt? sz_s with
      | none => .valueError
      | some n =>
          match unitsMap units with
          | none => .keyError units
          | some factor => .ok (n * factor)
  | _ => .valueError

/-- Embedding of `get_volume_size` (src/main.py lines 217-223): scan the
output lines of `rbd info` for the first whose stripped form starts with
"size" and process it; if no line matches, print a message and
`raise SystemExit(1)`. -/
def get_volume_size : List (List Char) → VolSizeResult
  | [] => .systemExit 1
  | line :: rest =>
      if pyStartsWith (pyStrip line) "size".data then get_volume_size_line line
      else get_volume_size rest

/-- C10: `get_volume_size` produces a byte count only when the size line's
unit token is MB, GB or TB (with the factors 2^20, 2^30, 2^40); an
unrecognised unit such as "GiB" raises an unhandled `KeyError` rather than
returning a size or exiting with the configuration-error code; and when no
size line is present at all it exits with code 1. -/
theorem c10_volume_size_units (lines : List (List Char))
    (hnone : ∀ l ∈ lines, pyStartsWith (pyStrip l) "size".data = false) :
    get_volume_size lines = VolSizeResult.systemExit 1 ∧
    get_volume_size_line "  size 5 GiB".data = VolSizeResult.keyError "GiB".data ∧
    get_volume_size_line "  size 10 MB in 3 objects".data
      = VolSizeResult.ok (10 * 2 ^ 20) ∧
    get_volume_size_line "  size 10 GB in 3 objects".data
      = VolSizeResult.ok (10 * 2 ^ 30) ∧
    get_volume_size_line "  size 10 TB in 3 objects".data
      = VolSizeResult.ok (10 * 2 ^ 40) ∧
    ∀ line sz, get_volume_size_line line = VolSizeResult.ok sz →
      ∃ t n u rest, pySplit line = t :: n :: u :: rest ∧ (unitsMap u).isSome := by
  refine ⟨?_, by decide, by decide, by decide, by decide, ?_⟩
  · induction lines with
    | nil => rfl
    | cons l rest ih =>
        have hl := hnone l (List.mem_cons_self l rest)
        simp only [get_volume_size, hl, Bool.false_eq_true, if_false]
        exact ih (fun x hx => hnone x (List.mem_cons_of_mem _ hx))
  · intro line sz hok
    unfold get_volume_size_line at hok
    rcases hsplit : pySplit line with _ | ⟨t, _ | ⟨n, _ | ⟨u, rest⟩⟩⟩ <;>
      rw [hsplit] at hok <;> dsimp only at hok
    · exact VolSizeResult.noConfusion hok
    · exact VolSizeResult.noConfusion hok
    · exact VolSizeResult.noConfusion hok
    · refine ⟨t, n, u, rest, rfl, ?_⟩
      rcases hn : pyInt? n with _ | m <;> rw [hn] at hok <;> dsimp only at hok
      · exact VolSizeResult.noConfusion hok
      · rcases hu : unitsMap u with _ | f <;> rw [hu] at hok <;> dsimp only at hok
        · exact VolSizeResult.noConfusion hok
        · simp [hu]

/-- C10 witness: the theorem applied to an `rbd info` output with no size
line. -/
theorem c10_volume_size_units_witness :
    get_volume_size ["rbd image".data, "order 22".data] = VolSizeResult.systemExit 1 ∧
    get_volume_size_line "  size 5 GiB".data = VolSizeResult.keyError "GiB".data ∧
    get_volume_size_line "  size 10 MB in 3 objects".data
      = VolSizeResult.ok (10 * 2 ^ 20) ∧
    get_volume_size_line "  size 10 GB in 3 objects".data
      = VolSizeResult.ok (10 * 2 ^ 30) ∧
    get_volume_size_line "  size 10 TB in 3 objects".data
      = VolSizeResult.ok (10 * 2 ^ 40) ∧
    ∀ line sz, get_volume_size_line line = VolSizeResult.ok sz →
      ∃ t n u rest, pySplit line = t :: n :: u :: rest ∧ (unitsMap u).isSome :=
  c10_volume_size_units ["rbd image".data, "order 22".data] (by decide)

end FiorbdRunner
